import Mathlib

/-!
# Geotracker: error taxonomy, history repository, history client, HTTP handler, geo point

A shallow embedding of the parts of the geotracker services that translate
errors across the storage, RPC and HTTP boundaries, together with the geo
point helpers.  Go `error` values are modelled by `GoError` (with `none`
standing for `nil`), and every external collaborator (database, RPC
transport, history service) is an explicit argument of the function that
calls it.
-/

namespace Geotracker

/-! ## Go error values -/

/-- Modelled from the spec: the package `errpack` is not part of the sources, only its
uses are.  Its three exported error values (the closed domain taxonomy of the
specification, section 4.1) are package level values compared by identity;
`ErrNoRows` is `sql.ErrNoRows` of the standard library, a value of the same kind. -/
inductive Sentinel
  | ErrInvalidArgument
  | ErrInternalError
  | ErrNotFound
  | ErrNoRows
  deriving DecidableEq, Repr

/-- gRPC status codes (`codes.Code`, an unsigned 32 bit number). -/
abbrev Code := Nat

/-- The code `codes.InvalidArgument`. -/
def codes.InvalidArgument : Code := 3
/-- The code `codes.NotFound`. -/
def codes.NotFound : Code := 5
/-- The code `codes.Internal`. -/
def codes.Internal : Code := 13

/-- Go error values, as far as the program can tell them apart.
* `sentinel s`: a package level value made by `errors.New`;
* `pqError c`: a `*pq.Error` whose `Constraint` field is `c`;
* `statusError code`: an error carrying a gRPC status (it has a `GRPCStatus` method);
* `other msg`: any other error without an `Unwrap` method;
* `wrapW e`: the result of `fmt.Errorf("%w", e)`, or any error whose `Unwrap` gives `e`;
* `wrapWV e d`: the result of `fmt.Errorf("%w: %v", e, d)`: it unwraps to `e`, and `d`
  only contributes its text. -/
inductive GoError
  | sentinel (s : Sentinel)
  | pqError (constraint : String)
  | statusError (code : Code)
  | other (msg : String)
  | wrapW (err : GoError)
  | wrapWV (err : GoError) (detail : GoError)
  deriving DecidableEq, Repr

/-- The method `Unwrap` as seen by `errors.Unwrap`. -/
def GoError.Unwrap : GoError → Option GoError
  | .wrapW e => some e
  | .wrapWV e _ => some e
  | _ => none

/-- The walk of `errors.Is` along the `Unwrap` chain of a non-nil error, for a target
that is a package level value. -/
def GoError.Is (target : Sentinel) : GoError → Bool
  | .sentinel s => s = target
  | .wrapW e => GoError.Is target e
  | .wrapWV e _ => GoError.Is target e
  | _ => false

/-- The function `errors.Is(err, target)`; `none` is the nil error. -/
def errorsIs (err : Option GoError) (target : Sentinel) : Bool :=
  match err with
  | none => false
  | some e => e.Is target

/-- The function `errors.As(err, &pqErr)` for `pqErr` of type `*pq.Error`: the
constraint of the first `*pq.Error` on the `Unwrap` chain, if there is one. -/
def errorsAsPq : GoError → Option String
  | .pqError c => some c
  | .wrapW e => errorsAsPq e
  | .wrapWV e _ => errorsAsPq e
  | _ => none

/-- The function `status.FromError` on a non-nil error: the code of the status the
error itself carries, `none` when the second result is false. -/
def statusFromError : GoError → Option Code
  | .statusError c => some c
  | _ => none

/-- The call `fmt.Errorf("%w", errpack.X)`. -/
def errorfW (s : Sentinel) : GoError := .wrapW (.sentinel s)

/-- The call `fmt.Errorf("%w: %v", errpack.X, err)`. -/
def errorfWV (s : Sentinel) (err : GoError) : GoError := .wrapWV (.sentinel s) err

/-! ## Geo points -/

/-- The type `geo.Point`, an array of two 64 bit floats `[longitude, latitude]`, over a
carrier `F` of the float values. -/
structure Point (F : Type) where
  lon : F
  lat : F
  deriving DecidableEq, Repr

/-- The method `Point.Longitude`. -/
def Point.Longitude {F : Type} (p : Point F) : F := p.lon

/-- The method `Point.Latitude`. -/
def Point.Latitude {F : Type} (p : Point F) : F := p.lat

/-- The zero value of `geo.Point`. -/
def Point.zero {F : Type} [Zero F] : Point F := ⟨0, 0⟩

/-! ## History repository -/

/-- Instants (`time.Time`), on a linear time axis; `0` stands for the zero `time.Time`. -/
abbrev Time := Int

/-- The type `domain.Record` of the history service. -/
structure Record (F : Type) where
  ID : Int
  UserID : Int
  A : Point F
  B : Point F
  Timestamp : Time
  deriving DecidableEq, Repr

/-- The zero value `domain.Record{}`. -/
def Record.zero {F : Type} [Zero F] : Record F := ⟨0, 0, Point.zero, Point.zero, 0⟩

/-- The type `port.HistoryRepositoryAddRecordRequest`. -/
structure HistoryRepositoryAddRecordRequest (F : Type) where
  UserID : Int
  A : Point F
  B : Point F
  Timestamp : Time
  deriving DecidableEq, Repr

/-- The columns `id, user_id, a, b, timestamp` that `Scan` stores on success. -/
structure AddRecordRow (F : Type) where
  id : Int
  userID : Int
  a : Point F
  b : Point F
  timestamp : Time
  deriving DecidableEq, Repr

def constraintRecordsALongitudeValid : String := "records_a_longitude_valid"
def constraintRecordsALatitudeValid : String := "records_a_latitude_valid"
def constraintRecordsBLongitudeValid : String := "records_b_longitude_valid"
def constraintRecordsBLatitudeValid : String := "records_b_latitude_valid"

/-- The switch on `pqErr.Constraint` in `AddRecord`: true on the four cases that fall
through to the `ErrInvalidArgument` return. -/
def isCoordinateConstraint (c : String) : Bool :=
  c = constraintRecordsALongitudeValid ||
  c = constraintRecordsALatitudeValid ||
  c = constraintRecordsBLongitudeValid ||
  c = constraintRecordsBLatitudeValid

/-- The method `postgresRepository.AddRecord`.  The argument `db` is the execution of
`addRecordQuery` followed by `Scan`: it gives the scanned row or the error. -/
def postgresRepository.AddRecord {F : Type} [Zero F]
    (db : HistoryRepositoryAddRecordRequest F → Except GoError (AddRecordRow F))
    (req : HistoryRepositoryAddRecordRequest F) : Record F × Option GoError :=
  match db req with
  | .error err =>
    match errorsAsPq err with
    | some c =>
      if isCoordinateConstraint c then
        (Record.zero, some (errorfW .ErrInvalidArgument))
      else
        (Record.zero, some (errorfWV .ErrInternalError err))
    | none => (Record.zero, some (errorfWV .ErrInternalError err))
  | .ok row =>
    (⟨row.id, row.userID, row.a, row.b, row.timestamp⟩, none)

/-! ## History client of the location service -/

/-- The type `port.HistoryClientAddRecordRequest`. -/
structure HistoryClientAddRecordRequest (F : Type) where
  UserID : Int
  A : Point F
  B : Point F
  Timestamp : Time
  deriving DecidableEq, Repr

/-- The type `port.HistoryClientAddRecordResponse`. -/
structure HistoryClientAddRecordResponse (F : Type) where
  UserID : Int
  A : Point F
  B : Point F
  Timestamp : Time
  deriving DecidableEq, Repr

/-- The zero value `port.HistoryClientAddRecordResponse{}`. -/
def HistoryClientAddRecordResponse.zero {F : Type} [Zero F] :
    HistoryClientAddRecordResponse F := ⟨0, Point.zero, Point.zero, 0⟩

/-- The message `pb.AddRecordRequest`; `UserId` is a signed 32 bit field. -/
structure pb.AddRecordRequest (F : Type) where
  UserId : Int
  A : Point F
  B : Point F
  Timestamp : Time
  deriving DecidableEq, Repr

/-- The message `pb.AddRecordResponse` of a successful call, both points present. -/
structure pb.AddRecordResponse (F : Type) where
  UserId : Int
  A : Point F
  B : Point F
  Timestamp : Time
  deriving DecidableEq, Repr

/-- The conversion `int32(n)` of a Go `int`: the value wrapped into `[-2^31, 2^31)`. -/
def int32 (n : Int) : Int := (n + 2 ^ 31) % 2 ^ 32 - 2 ^ 31

/-- The transport under `GRPCClient.AddRecord`: `dial` is the error of `grpc.Dial`
(`none` for nil) and `call` is the generated `client.AddRecord`. -/
structure Transport (F : Type) where
  dial : Option GoError
  call : pb.AddRecordRequest F → Except GoError (pb.AddRecordResponse F)

/-- The message that `GRPCClient.AddRecord` puts on the wire for a request. -/
def GRPCClient.wireRequest {F : Type} (req : HistoryClientAddRecordRequest F) :
    pb.AddRecordRequest F :=
  ⟨int32 req.UserID, ⟨req.A.Longitude, req.A.Latitude⟩,
    ⟨req.B.Longitude, req.B.Latitude⟩, req.Timestamp⟩

/-- The method `GRPCClient.AddRecord`. -/
def GRPCClient.AddRecord {F : Type} [Zero F] (t : Transport F)
    (req : HistoryClientAddRecordRequest F) :
    HistoryClientAddRecordResponse F × Option GoError :=
  match t.dial with
  | some err => (HistoryClientAddRecordResponse.zero, some (errorfWV .ErrInternalError err))
  | none =>
    match t.call (GRPCClient.wireRequest req) with
    | .error err =>
      match statusFromError err with
      | none => (HistoryClientAddRecordResponse.zero, some (errorfWV .ErrInternalError err))
      | some code =>
        if code = codes.InvalidArgument then
          (HistoryClientAddRecordResponse.zero, some (errorfW .ErrInvalidArgument))
        else
          (HistoryClientAddRecordResponse.zero, some (errorfWV .ErrInternalError err))
    | .ok res =>
      (⟨res.UserId, ⟨res.A.lon, res.A.lat⟩, ⟨res.B.lon, res.B.lat⟩, res.Timestamp⟩, none)

/-- The errors the transport of one `GRPCClient.AddRecord` call produced. -/
def Transport.rawErrors {F : Type} (t : Transport F)
    (req : HistoryClientAddRecordRequest F) : List GoError :=
  match t.dial with
  | some err => [err]
  | none =>
    match t.call (GRPCClient.wireRequest req) with
    | .error err => [err]
    | .ok _ => []

/-! ## HTTP handler of the history service -/

/-- Modelled from the spec: the function `errpack.ErrToHTTP` is not part of the sources.
Section 4.1 gives its table: InvalidArgument is 400, NotFound is 404, Internal and
anything unclassified is 500.  The body is represented by the domain error it names. -/
def ErrToHTTP (err : GoError) : Nat × Sentinel :=
  if err.Is .ErrInvalidArgument then (400, .ErrInvalidArgument)
  else if err.Is .ErrNotFound then (404, .ErrNotFound)
  else (500, .ErrInternalError)

/-- The type `getDistanceDTO`: the query parameters `from` and `to`, the empty string
when the parameter is absent. -/
structure getDistanceDTO where
  From : String
  To : String
  deriving DecidableEq, Repr

/-- The type `port.HistoryServiceGetDistanceByUsernameRequest`; `none` is a nil pointer. -/
structure HistoryServiceGetDistanceByUsernameRequest where
  Username : String
  From : Option Time
  To : Option Time
  deriving DecidableEq, Repr

/-- What `getDistance` reads from the request: the `username` URL parameter, whether
`r.ParseForm()` failed, and what `schemaDecoder.Decode` made of the query (`none` when
it returned an error). -/
structure DistanceRequest where
  username : String
  parseFormFailed : Bool
  decoded : Option getDistanceDTO
  deriving DecidableEq, Repr

/-- What `getDistance` did: the call of `GetDistanceByUsername` it made, if any, and the
status and body it passed to `util.Respond`. -/
structure DistanceOutcome (R : Type) where
  call : Option HistoryServiceGetDistanceByUsernameRequest
  status : Nat
  body : Except Sentinel R

/-- The three identical lines that respond with the mapping of an error, before any
call of the service. -/
def respondError {R : Type} (err : GoError) : DistanceOutcome R :=
  ⟨none, (ErrToHTTP err).1, .error (ErrToHTTP err).2⟩

/-- The method `HTTPHandler.getDistance`.  The argument `parse` is
`time.Parse(time.RFC3339, ·)` and `service` is `h.service.GetDistanceByUsername`. -/
def HTTPHandler.getDistance {R : Type} (parse : String → Option Time)
    (service : HistoryServiceGetDistanceByUsernameRequest → Except GoError R)
    (r : DistanceRequest) : DistanceOutcome R :=
  if r.parseFormFailed then respondError (.sentinel .ErrInvalidArgument)
  else
    match r.decoded with
    | none => respondError (.sentinel .ErrInvalidArgument)
    | some dto =>
      -- if dto.From != "" { from, err := time.Parse(time.RFC3339, dto.From) ... }
      match (if dto.From ≠ "" then (parse dto.From).map some else some none) with
      | none => respondError (.sentinel .ErrInvalidArgument)
      | some fromPtr =>
        -- if dto.From != "" { to, err := time.Parse(time.RFC3339, dto.To) ... }
        match (if dto.From ≠ "" then (parse dto.To).map some else some none) with
        | none => respondError (.sentinel .ErrInvalidArgument)
        | some toPtr =>
          match service ⟨r.username, fromPtr, toPtr⟩ with
          | .error err =>
            ⟨some ⟨r.username, fromPtr, toPtr⟩, (ErrToHTTP err).1, .error (ErrToHTTP err).2⟩
          | .ok res => ⟨some ⟨r.username, fromPtr, toPtr⟩, 200, .ok res⟩

/-! ## Distance aggregation of the history repository -/

/-- The type `port.HistoryRepositoryGetDistanceRequest`; `none` is a nil bound, sent to
the database as NULL. -/
structure HistoryRepositoryGetDistanceRequest where
  UserID : Int
  From : Option Time
  To : Option Time
  deriving DecidableEq, Repr

/-- The method `postgresRepository.GetDistance`.  The argument `db` is the execution of
`getDistanceQuery` followed by `Scan`: the scanned distance or the error. -/
def postgresRepository.GetDistance {F : Type} [Zero F]
    (db : HistoryRepositoryGetDistanceRequest → Except GoError F)
    (req : HistoryRepositoryGetDistanceRequest) : F × Option GoError :=
  match db req with
  | .error err =>
    if errorsIs (some err) .ErrNoRows then (0, none)
    else (0, some (errorfWV .ErrInternalError err))
  | .ok distance => (distance, none)

/-- SQL truth values: `none` is unknown (NULL). -/
abbrev SqlBool := Option Bool

/-- SQL `x >= y` on nullable operands. -/
def sqlGe (x y : Option Time) : SqlBool :=
  match x, y with
  | some a, some b => some (decide (b ≤ a))
  | _, _ => none

/-- SQL `x <= y` on nullable operands. -/
def sqlLe (x y : Option Time) : SqlBool :=
  match x, y with
  | some a, some b => some (decide (a ≤ b))
  | _, _ => none

/-- SQL `x = y` on nullable operands. -/
def sqlEq (x y : Option Int) : SqlBool :=
  match x, y with
  | some a, some b => some (decide (a = b))
  | _, _ => none

/-- SQL `AND` in three valued logic. -/
def sqlAnd (x y : SqlBool) : SqlBool :=
  match x, y with
  | some false, _ => some false
  | _, some false => some false
  | some true, some true => some true
  | _, _ => none

/-- The condition `user_id = $1 AND timestamp >= $2 AND timestamp <= $3` of
`getDistanceQuery` on one row of the records table. -/
def getDistanceWhere {F : Type} (req : HistoryRepositoryGetDistanceRequest)
    (row : Record F) : SqlBool :=
  sqlAnd (sqlAnd (sqlEq (some row.UserID) (some req.UserID))
    (sqlGe (some row.Timestamp) req.From)) (sqlLe (some row.Timestamp) req.To)

/-- The rows `getDistanceQuery` aggregates: those on which the condition is true. -/
def getDistanceRows {F : Type} (table : List (Record F))
    (req : HistoryRepositoryGetDistanceRequest) : List (Record F) :=
  table.filter (fun row => getDistanceWhere req row == some true)

/-- The query `getDistanceQuery`: `coalesce(SUM(a <@> b), 0.00) * 1609.344` over the
selected rows.  The argument `dist` is the operator `<@>` (statute miles), taken as an
exact number; the sum of no row is NULL, which `coalesce` turns into 0. -/
def getDistanceQuery {F : Type} (dist : Point F → Point F → ℚ) (table : List (Record F))
    (req : HistoryRepositoryGetDistanceRequest) : ℚ :=
  ((getDistanceRows table req).map (fun row => dist row.A row.B)).sum * (1609344 / 1000)

/-! ## Circuit breaker and retrier settings -/

/-- The field `IsSuccessful` of the `gobreaker.Settings` in `App.Start`. -/
def App.Start.breakerIsSuccessful (err : Option GoError) : Bool :=
  !errorsIs err .ErrInternalError

/-- The field `IsSuccessful` of the `retrier.Config` in `App.Start`. -/
def App.Start.retrierIsSuccessful (err : Option GoError) : Bool :=
  !errorsIs err .ErrInternalError

/-! ## Truncation of geo points -/

/-- The constant `geo.PointPrecision`. -/
def PointPrecision : Int := 8

/-- The function `geo.Trunc`; the argument `utilTrunc` is `util.Trunc`. -/
def geo.Trunc {F : Type} (utilTrunc : F → Int → F) (point : Point F) : Point F :=
  ⟨utilTrunc point.lon PointPrecision, utilTrunc point.lat PointPrecision⟩

/-- The integer part of a number, rounding toward zero. -/
def truncTowardZero (x : ℚ) : ℤ := if 0 ≤ x then ⌊x⌋ else ⌈x⌉

/-- Modelled from the spec: the function `util.Trunc` is not part of the sources, only
its test is.  Section 4.2: it truncates (not rounds) a coordinate to `precision`
fractional decimal digits; the test case `OK_3` fixes that a negative precision returns
the number unchanged.  Numbers are exact decimals here (rationals), so the binary
rounding of 64 bit floats is not part of this model. -/
def util.Trunc (number : ℚ) (precision : Int) : ℚ :=
  if precision < 0 then number
  else (truncTowardZero (number * 10 ^ precision.toNat) : ℚ) / 10 ^ precision.toNat

/-! ## Text codec of geo points -/

/-- The scanner state `ss` of package `fmt`: the token buffer and the unread input. -/
structure ss where
  buf : List Char
  input : List Char
  deriving DecidableEq, Repr

/-- The method `ss.accept`: when the next rune is one of `ok` it is moved to the buffer. -/
def ss.accept (s : ss) (ok : List Char) : Bool × ss :=
  match s.input with
  | [] => (false, s)
  | r :: rest => if r ∈ ok then (true, ⟨s.buf ++ [r], rest⟩) else (false, s)

/-- The loop `for s.accept(ok) {}`. -/
def acceptAll (ok : List Char) (buf : List Char) : List Char → ss
  | [] => ⟨buf, []⟩
  | r :: rest => if r ∈ ok then acceptAll ok (buf ++ [r]) rest else ⟨buf, r :: rest⟩

/-- The constant `decimalDigits` of package `fmt`. -/
def decimalDigits : List Char := "0123456789".toList

/-- The constant `hexadecimalDigits` of package `fmt`. -/
def hexadecimalDigits : List Char := "0123456789aAbBcCdDeEfF".toList

/-- The constant `sign` of package `fmt`. -/
def sign : List Char := "+-".toList

/-- The constant `period` of package `fmt`. -/
def period : List Char := ".".toList

/-- The constant `exponent` of package `fmt`. -/
def exponent : List Char := "eEpP".toList

/-- The last three steps of `ss.floatToken` (`digits?`, `decimal point?`, `exponent?`),
once the digits and the exponent letters are chosen. -/
def floatToken.number (digits exp : List Char) (s : ss) : ss :=
  -- digits?
  let s10 := acceptAll digits s.buf s.input
  -- decimal point?
  let dot := s10.accept period
  let s12 := if dot.1 then acceptAll digits dot.2.buf dot.2.input else dot.2
  -- exponent?
  let e := s12.accept exp
  if e.1 then
    -- leading sign?
    let sg := (e.2.accept sign).2
    -- digits?
    acceptAll (decimalDigits ++ "_".toList) sg.buf sg.input
  else e.2

/-- The steps of `ss.floatToken` after the leading sign: `Inf?`, the choice between
decimal and hexadecimal digits, and the number itself. -/
def floatToken.unsigned (s4 : ss) : List Char × List Char :=
  -- Inf?
  let i1 := s4.accept "iI".toList
  let i2 := if i1.1 then i1.2.accept "nN".toList else (false, i1.2)
  let i3 := if i2.1 then i2.2.accept "fF".toList else (false, i2.2)
  if i3.1 then (i3.2.buf, i3.2.input)
  else
    let z := i3.2.accept "0".toList
    let x := if z.1 then z.2.accept "xX".toList else (false, z.2)
    let digits := (if x.1 then hexadecimalDigits else decimalDigits) ++ "_".toList
    let exp := if x.1 then "pP".toList else exponent
    let s14 := floatToken.number digits exp x.2
    (s14.buf, s14.input)

/-- The method `ss.floatToken`: the longest prefix of the input that looks like a
floating point number, and the input left after it. -/
def floatToken (input : List Char) : List Char × List Char :=
  let s0 : ss := ⟨[], input⟩
  -- NaN?
  let n1 := s0.accept "nN".toList
  let n2 := if n1.1 then n1.2.accept "aA".toList else (false, n1.2)
  let n3 := if n2.1 then n2.2.accept "nN".toList else (false, n2.2)
  if n3.1 then (n3.2.buf, n3.2.input)
  else
    -- leading sign?
    floatToken.unsigned (n3.2.accept sign).2

/-- The function `isSpace` of package `fmt`. -/
def isSpace (r : Char) : Bool :=
  let n := r.toNat
  (0x0009 ≤ n ∧ n ≤ 0x000d) || n = 0x0020 || n = 0x0085 || n = 0x00a0 || n = 0x1680 ||
  (0x2000 ≤ n ∧ n ≤ 0x200a) || (0x2028 ≤ n ∧ n ≤ 0x2029) || n = 0x202f || n = 0x205f ||
  n = 0x3000

/-- The method `ss.SkipSpace` when newlines do not count as space (`Sscanf`). -/
def SkipSpace : List Char → Except GoError (List Char)
  | [] => .ok []
  | r :: rest =>
    if r = '\n' then .error (.other "unexpected newline")
    else if isSpace r then SkipSpace rest
    else .ok (r :: rest)

/-- One literal rune of the format in `ss.advance`. -/
def literal (c : Char) : List Char → Except GoError (List Char)
  | [] => .error (.other "unexpected EOF")
  | r :: rest => if r = c then .ok rest else .error (.other "input does not match format")

/-- The verb `%f` with a `*float64` operand in `doScanf` and `scanOne`. -/
def scanFloat {F : Type} (parseFloat : List Char → Except GoError F) (input : List Char) :
    Except GoError (F × List Char) :=
  match SkipSpace input with
  | .error e => .error e
  | .ok i1 =>
    match SkipSpace i1 with
    | .error e => .error e
    | .ok [] => .error (.other "EOF")
    | .ok (r :: rest) =>
      match parseFloat (floatToken (r :: rest)).1 with
      | .error e => .error e
      | .ok v => .ok (v, (floatToken (r :: rest)).2)

/-- The text of a decimal floating point number: an optional minus sign, digits, an
optional fraction and an optional exponent. -/
def IsDecimalFloatText (t : List Char) : Prop :=
  ∃ sgn int frac exp : List Char,
    t = sgn ++ int ++ frac ++ exp ∧
    (sgn = [] ∨ sgn = ['-']) ∧
    int ≠ [] ∧ (∀ d ∈ int, d ∈ decimalDigits) ∧
    (frac = [] ∨ ∃ ds, frac = '.' :: ds ∧ ∀ d ∈ ds, d ∈ decimalDigits) ∧
    (exp = [] ∨ ∃ sg ds, exp = 'e' :: sg :: ds ∧ sg ∈ sign ∧ ∀ d ∈ ds, d ∈ decimalDigits)

/-- The next rune of the input, if any, is none of `ok`. -/
def HeadNotIn (ok : List Char) (l : List Char) : Prop :=
  ∀ r rest, l = r :: rest → r ∉ ok

/-- The source handed to `Scan` (`src interface{}`): a byte string, or a value of any
other type. -/
inductive ScanSource
  | bytes (val : List Char)
  | otherType
  deriving DecidableEq, Repr

/-- The call `fmt.Sscanf(str, "(%f,%f)", &p[0], &p[1])`: the operands after the call and
its error.  An operand is stored as soon as its number is read. -/
def sscanfPoint {F : Type} (parseFloat : List Char → Except GoError F) (p : Point F)
    (str : List Char) : Point F × Option GoError :=
  match literal '(' str with
  | .error e => (p, some e)
  | .ok i1 =>
    match scanFloat parseFloat i1 with
    | .error e => (p, some e)
    | .ok (x, i2) =>
      match literal ',' i2 with
      | .error e => (⟨x, p.lat⟩, some e)
      | .ok i3 =>
        match scanFloat parseFloat i3 with
        | .error e => (⟨x, p.lat⟩, some e)
        | .ok (y, i4) =>
          match literal ')' i4 with
          | .error e => (⟨x, y⟩, some e)
          | .ok _ => (⟨x, y⟩, none)

/-- The method `PostgresPoint.Value`: the text and the nil error.  The argument
`formatFloat` is the verb `%v` on a 64 bit float. -/
def PostgresPoint.Value {F : Type} (formatFloat : F → List Char) (p : Point F) :
    List Char × Option GoError :=
  ('(' :: (formatFloat p.lon ++ ',' :: (formatFloat p.lat ++ [')'])), none)

/-- The method `PostgresPoint.Scan`: the receiver after the call and the error.  The
argument `parseFloat` is the conversion of a scanned token (`ss.convertFloat`). -/
def PostgresPoint.Scan {F : Type} (parseFloat : List Char → Except GoError F)
    (p : Point F) (src : ScanSource) : Point F × Option GoError :=
  match src with
  | .otherType => (p, some (.other "value contains unexpected type"))
  | .bytes val => sscanfPoint parseFloat p val

/-! ## Theorems -/

/-- The walk of `errors.Is` finds at most one package level value on a chain. -/
theorem GoError.Is_unique (e : GoError) (s t : Sentinel)
    (hs : e.Is s = true) (ht : e.Is t = true) : s = t := by
  induction e with
  | sentinel u => simp [GoError.Is] at hs ht; rw [← hs, ← ht]
  | pqError c => simp [GoError.Is] at hs
  | statusError c => simp [GoError.Is] at hs
  | other m => simp [GoError.Is] at hs
  | wrapW e ih => exact ih (by simpa [GoError.Is] using hs) (by simpa [GoError.Is] using ht)
  | wrapWV e d ih _ =>
    exact ih (by simpa [GoError.Is] using hs) (by simpa [GoError.Is] using ht)

/-- What `errors.Is` answers on the result of `fmt.Errorf("%w", errpack.X)`. -/
theorem Is_errorfW (s t : Sentinel) : (errorfW s).Is t = decide (s = t) := by
  simp [errorfW, GoError.Is]

/-- What `errors.Is` answers on the result of `fmt.Errorf("%w: %v", errpack.X, err)`. -/
theorem Is_errorfWV (s t : Sentinel) (err : GoError) :
    (errorfWV s err).Is t = decide (s = t) := by
  simp [errorfWV, GoError.Is]

/-- C1: when the insert of the history repository's AddRecord fails with storage error
`err`, the returned record is the zero Record; the returned error is (wraps)
ErrInvalidArgument exactly when `err` is a Postgres error whose violated constraint is
one of the four coordinate constraints; and in every other case the returned error
wraps ErrInternalError (and is then not ErrInvalidArgument). -/
theorem addRecord_failure_mapping {F : Type} [Zero F]
    (db : HistoryRepositoryAddRecordRequest F → Except GoError (AddRecordRow F))
    (req : HistoryRepositoryAddRecordRequest F) (err : GoError)
    (hfail : db req = .error err) :
    (postgresRepository.AddRecord db req).1 = Record.zero ∧
    (errorsIs (postgresRepository.AddRecord db req).2 .ErrInvalidArgument = true ↔
      ∃ c, errorsAsPq err = some c ∧
        c ∈ ["records_a_longitude_valid", "records_a_latitude_valid",
             "records_b_longitude_valid", "records_b_latitude_valid"]) ∧
    ((¬ ∃ c, errorsAsPq err = some c ∧
        c ∈ ["records_a_longitude_valid", "records_a_latitude_valid",
             "records_b_longitude_valid", "records_b_latitude_valid"]) →
      (postgresRepository.AddRecord db req).2 = some (errorfWV .ErrInternalError err) ∧
      errorsIs (postgresRepository.AddRecord db req).2 .ErrInternalError = true) := by
  have hmem : ∀ c : String, isCoordinateConstraint c = true ↔
      c ∈ ["records_a_longitude_valid", "records_a_latitude_valid",
           "records_b_longitude_valid", "records_b_latitude_valid"] := by
    intro c
    simp [isCoordinateConstraint, constraintRecordsALongitudeValid,
      constraintRecordsALatitudeValid, constraintRecordsBLongitudeValid,
      constraintRecordsBLatitudeValid, or_assoc]
  simp only [postgresRepository.AddRecord, hfail]
  cases hpq : errorsAsPq err with
  | none =>
    refine ⟨rfl, ⟨fun h => ?_, fun h => ?_⟩, fun _ => ⟨rfl, ?_⟩⟩
    · simp [errorsIs, Is_errorfWV] at h
    · obtain ⟨c, h1, _⟩ := h
      cases h1
    · simp [errorsIs, Is_errorfWV]
  | some c =>
    simp only []
    by_cases hc : isCoordinateConstraint c = true
    · have hex : ∃ c2, some c = some c2 ∧
          c2 ∈ ["records_a_longitude_valid", "records_a_latitude_valid",
                "records_b_longitude_valid", "records_b_latitude_valid"] :=
        ⟨c, rfl, (hmem c).1 hc⟩
      rw [if_pos hc]
      refine ⟨rfl, ⟨fun _ => hex, fun _ => ?_⟩, fun h => absurd hex h⟩
      simp [errorsIs, Is_errorfW]
    · have hex : ¬ ∃ c2, some c = some c2 ∧
          c2 ∈ ["records_a_longitude_valid", "records_a_latitude_valid",
                "records_b_longitude_valid", "records_b_latitude_valid"] := by
        rintro ⟨c2, h1, h2⟩
        cases h1
        exact hc ((hmem c).2 h2)
      rw [if_neg hc]
      refine ⟨rfl, ⟨fun h => ?_, fun h => absurd h hex⟩, fun _ => ⟨rfl, ?_⟩⟩
      · simp [errorsIs, Is_errorfWV] at h
      · simp [errorsIs, Is_errorfWV]

/-- Witness of C1: the storage error is the violation of `records_b_latitude_valid`. -/
theorem addRecord_failure_mapping_witness :
    (fun _ : HistoryRepositoryAddRecordRequest Int =>
        (Except.error (GoError.pqError "records_b_latitude_valid") :
          Except GoError (AddRecordRow Int))) ⟨7, ⟨10, 20⟩, ⟨30, 181⟩, 5⟩ =
      .error (GoError.pqError "records_b_latitude_valid") ∧
    errorsIs (postgresRepository.AddRecord
        (fun _ : HistoryRepositoryAddRecordRequest Int =>
          (Except.error (GoError.pqError "records_b_latitude_valid") :
            Except GoError (AddRecordRow Int))) ⟨7, ⟨10, 20⟩, ⟨30, 181⟩, 5⟩).2
      .ErrInvalidArgument = true :=
  ⟨rfl, ((addRecord_failure_mapping _ _ (GoError.pqError "records_b_latitude_valid") rfl).2.1).2
    ⟨"records_b_latitude_valid", rfl, by decide⟩⟩

/-- A freshly made `fmt.Errorf("%w: %v", errpack.X, err)` is never `err` itself. -/
theorem errorfWV_ne (s : Sentinel) (err : GoError) : errorfWV s err ≠ err := by
  intro h
  have h2 := congrArg sizeOf h
  simp [errorfWV] at h2

/-- C2: every error returned by GRPCClient.AddRecord comes with the zero response,
unwraps directly to one of the domain errors InvalidArgument, NotFound, Internal (so
`errors.Is` finds that domain error), and is none of the errors the transport produced;
a dial failure yields an error wrapping ErrInternalError, and so does a call error
that carries no RPC status. -/
theorem grpcClient_addRecord_errors {F : Type} [Zero F] (t : Transport F)
    (req : HistoryClientAddRecordRequest F) :
    (∀ e, (GRPCClient.AddRecord t req).2 = some e →
      (GRPCClient.AddRecord t req).1 = HistoryClientAddRecordResponse.zero ∧
      (∃ s, s ∈ [Sentinel.ErrInvalidArgument, Sentinel.ErrNotFound,
                 Sentinel.ErrInternalError] ∧
        e.Unwrap = some (.sentinel s) ∧ e.Is s = true) ∧
      e ∉ t.rawErrors req) ∧
    (∀ d, t.dial = some d →
      (GRPCClient.AddRecord t req).2 = some (errorfWV .ErrInternalError d) ∧
      errorsIs (GRPCClient.AddRecord t req).2 .ErrInternalError = true) ∧
    (∀ c, t.dial = none → t.call (GRPCClient.wireRequest req) = .error c →
      statusFromError c = none →
      (GRPCClient.AddRecord t req).2 = some (errorfWV .ErrInternalError c) ∧
      errorsIs (GRPCClient.AddRecord t req).2 .ErrInternalError = true) := by
  refine ⟨?_, ?_, ?_⟩
  · intro e he
    simp only [GRPCClient.AddRecord, Transport.rawErrors] at he ⊢
    cases hd : t.dial with
    | some d =>
      simp only [hd] at he ⊢
      cases he
      refine ⟨trivial, ⟨.ErrInternalError, by simp, rfl, by simp [Is_errorfWV]⟩, ?_⟩
      simpa using errorfWV_ne _ d
    | none =>
      simp only [hd] at he ⊢
      cases hc : t.call (GRPCClient.wireRequest req) with
      | ok res => simp [hc] at he
      | error c =>
        simp only [hc] at he ⊢
        cases hs : statusFromError c with
        | none =>
          simp only [hs] at he ⊢
          cases he
          refine ⟨trivial, ⟨.ErrInternalError, by simp, rfl, by simp [Is_errorfWV]⟩, ?_⟩
          simpa using errorfWV_ne _ c
        | some code =>
          simp only [hs] at he ⊢
          by_cases hcode : code = codes.InvalidArgument
          · simp only [hcode, if_true] at he ⊢
            cases he
            refine ⟨trivial, ⟨.ErrInvalidArgument, by simp, rfl, by simp [Is_errorfW]⟩, ?_⟩
            cases c <;> simp [statusFromError] at hs
            simp [errorfW]
          · simp only [hcode, if_false] at he ⊢
            cases he
            refine ⟨trivial, ⟨.ErrInternalError, by simp, rfl, by simp [Is_errorfWV]⟩, ?_⟩
            simpa using errorfWV_ne _ c
  · intro d hd
    simp [GRPCClient.AddRecord, hd, errorsIs, Is_errorfWV]
  · intro c hd hc hs
    simp [GRPCClient.AddRecord, hd, hc, hs, errorsIs, Is_errorfWV]

/-- Witness of C2: the dial fails with a plain connection error. -/
theorem grpcClient_addRecord_errors_witness :
    (GRPCClient.AddRecord
        (⟨some (.other "connection refused"), fun _ => .error (.other "unused")⟩ :
          Transport Int) ⟨7, ⟨10, 20⟩, ⟨30, 40⟩, 5⟩).2 =
      some (errorfWV .ErrInternalError (.other "connection refused")) ∧
    errorsIs (GRPCClient.AddRecord
        (⟨some (.other "connection refused"), fun _ => .error (.other "unused")⟩ :
          Transport Int) ⟨7, ⟨10, 20⟩, ⟨30, 40⟩, 5⟩).2 .ErrInternalError = true :=
  (grpcClient_addRecord_errors
    (⟨some (.other "connection refused"), fun _ => .error (.other "unused")⟩ : Transport Int)
    ⟨7, ⟨10, 20⟩, ⟨30, 40⟩, 5⟩).2.1 (.other "connection refused") rfl

/-- Counterexample to C3 as stated: a call error with status NOT_FOUND does not yield
the domain error NotFound; the client returns an error wrapping ErrInternalError. -/
theorem grpcClient_notFound_counterexample :
    statusFromError (.statusError codes.NotFound) = some codes.NotFound ∧
    errorsIs (GRPCClient.AddRecord
        (⟨none, fun _ => .error (.statusError codes.NotFound)⟩ : Transport Int)
        ⟨7, ⟨10, 20⟩, ⟨30, 40⟩, 5⟩).2 .ErrNotFound = false ∧
    errorsIs (GRPCClient.AddRecord
        (⟨none, fun _ => .error (.statusError codes.NotFound)⟩ : Transport Int)
        ⟨7, ⟨10, 20⟩, ⟨30, 40⟩, 5⟩).2 .ErrInternalError = true := by
  refine ⟨rfl, ?_, ?_⟩ <;>
    simp [GRPCClient.AddRecord, statusFromError, codes.NotFound, codes.InvalidArgument,
      errorsIs, Is_errorfWV]

/-- C3 (amended): for every call error that is an RPC status, code INVALID_ARGUMENT
yields an error wrapping ErrInvalidArgument, and every other code (NOT_FOUND and
INTERNAL among them) yields an error wrapping ErrInternalError, which is neither
NotFound nor InvalidArgument. -/
theorem grpcClient_status_mapping {F : Type} [Zero F] (t : Transport F)
    (req : HistoryClientAddRecordRequest F) (c : Code) (hd : t.dial = none)
    (hc : t.call (GRPCClient.wireRequest req) = .error (.statusError c)) :
    (c = codes.InvalidArgument →
      (GRPCClient.AddRecord t req).2 = some (errorfW .ErrInvalidArgument) ∧
      errorsIs (GRPCClient.AddRecord t req).2 .ErrInvalidArgument = true) ∧
    (c ≠ codes.InvalidArgument →
      (GRPCClient.AddRecord t req).2 =
        some (errorfWV .ErrInternalError (.statusError c)) ∧
      errorsIs (GRPCClient.AddRecord t req).2 .ErrInternalError = true ∧
      errorsIs (GRPCClient.AddRecord t req).2 .ErrNotFound = false ∧
      errorsIs (GRPCClient.AddRecord t req).2 .ErrInvalidArgument = false) := by
  constructor
  · intro h
    simp [GRPCClient.AddRecord, hd, hc, statusFromError, h, errorsIs, Is_errorfW]
  · intro h
    simp [GRPCClient.AddRecord, hd, hc, statusFromError, h, errorsIs, Is_errorfWV]

/-- Witness of C3 (amended): the call fails with status NOT_FOUND. -/
theorem grpcClient_status_mapping_witness :
    errorsIs (GRPCClient.AddRecord
        (⟨none, fun _ => .error (.statusError codes.NotFound)⟩ : Transport Int)
        ⟨7, ⟨10, 20⟩, ⟨30, 40⟩, 5⟩).2 .ErrInternalError = true :=
  ((grpcClient_status_mapping
    (⟨none, fun _ => .error (.statusError codes.NotFound)⟩ : Transport Int)
    ⟨7, ⟨10, 20⟩, ⟨30, 40⟩, 5⟩ codes.NotFound rfl rfl).2 (by decide)).2.1

/-- C4 (the code at the failing input): when `from` is absent, `getDistance` never
looks at `to`: whatever was supplied as `to`, the service is called with From and To
both nil, so a valid upper bound is dropped.  And when `from` is a valid timestamp and
`to` is absent, the empty `to` is handed to the parser, whose failure rejects the
request with status 400 without any call of the service. -/
theorem getDistance_to_bound_follows_from {R : Type} (parse : String → Option Time)
    (service : HistoryServiceGetDistanceByUsernameRequest → Except GoError R)
    (username : String) :
    (∀ toStr, (HTTPHandler.getDistance parse service
        ⟨username, false, some ⟨"", toStr⟩⟩).call = some ⟨username, none, none⟩) ∧
    (∀ fromStr t, fromStr ≠ "" → parse fromStr = some t → parse "" = none →
      (HTTPHandler.getDistance parse service ⟨username, false, some ⟨fromStr, ""⟩⟩).call
        = none ∧
      (HTTPHandler.getDistance parse service ⟨username, false, some ⟨fromStr, ""⟩⟩).status
        = 400) := by
  constructor
  · intro toStr
    cases h : service ⟨username, none, none⟩ <;> simp [HTTPHandler.getDistance, h]
  · intro f t hf hp he
    simp [HTTPHandler.getDistance, hf, hp, he, respondError, ErrToHTTP, GoError.Is]

/-- Witness of C4: `from` is a valid timestamp and `to` is absent. -/
theorem getDistance_to_bound_follows_from_witness :
    (HTTPHandler.getDistance
        (fun s => if s = "2021-06-01T00:00:00Z" then some 1622505600 else none)
        (fun _ => (Except.ok 0 : Except GoError Nat))
        ⟨"alice", false, some ⟨"2021-06-01T00:00:00Z", ""⟩⟩).status = 400 :=
  ((getDistance_to_bound_follows_from
      (fun s => if s = "2021-06-01T00:00:00Z" then some 1622505600 else none)
      (fun _ => (Except.ok 0 : Except GoError Nat)) "alice").2
    "2021-06-01T00:00:00Z" 1622505600 (by decide) (by decide) (by decide)).2

/-- C5 (the code at the failing input): when `from` is absent, `to` is never parsed, so
a supplied `to` that is not a valid RFC3339 timestamp is not rejected: whatever `to`
holds, the service is called, with both bounds nil, and its answer is sent with
status 200. -/
theorem getDistance_malformed_to_without_from {R : Type} (parse : String → Option Time)
    (service : HistoryServiceGetDistanceByUsernameRequest → Except GoError R)
    (username toStr : String) (res : R)
    (hservice : service ⟨username, none, none⟩ = .ok res) :
    (HTTPHandler.getDistance parse service ⟨username, false, some ⟨"", toStr⟩⟩).call
      = some ⟨username, none, none⟩ ∧
    (HTTPHandler.getDistance parse service ⟨username, false, some ⟨"", toStr⟩⟩).status
      = 200 := by
  simp [HTTPHandler.getDistance, hservice]

/-- Witness of C5: `from` is absent and `to` is the word yesterday, which the parser
rejects. -/
theorem getDistance_malformed_to_without_from_witness :
    (fun s => if s = "2021-06-01T00:00:00Z" then some (1622505600 : Time) else none)
      "yesterday" = none ∧
    (HTTPHandler.getDistance
        (fun s => if s = "2021-06-01T00:00:00Z" then some 1622505600 else none)
        (fun _ => (Except.ok 0 : Except GoError Nat))
        ⟨"alice", false, some ⟨"", "yesterday"⟩⟩).status = 200 :=
  ⟨by decide, (getDistance_malformed_to_without_from
    (fun s => if s = "2021-06-01T00:00:00Z" then some 1622505600 else none)
    (fun _ => (Except.ok 0 : Except GoError Nat)) "alice" "yesterday" 0 rfl).2⟩

/-- C6: the history repository's GetDistance returns (0, nil) when the query fails with
`sql.ErrNoRows`, returns 0 and an error wrapping ErrInternalError for every other
failure, returns exactly the scanned distance and nil otherwise, and in no case
returns an error that is NotFound or InvalidArgument. -/
theorem getDistance_result_mapping {F : Type} [Zero F]
    (db : HistoryRepositoryGetDistanceRequest → Except GoError F)
    (req : HistoryRepositoryGetDistanceRequest) :
    (∀ err, db req = .error err → errorsIs (some err) .ErrNoRows = true →
      postgresRepository.GetDistance db req = (0, none)) ∧
    (∀ err, db req = .error err → errorsIs (some err) .ErrNoRows = false →
      postgresRepository.GetDistance db req = (0, some (errorfWV .ErrInternalError err)) ∧
      errorsIs (postgresRepository.GetDistance db req).2 .ErrInternalError = true) ∧
    (∀ distance, db req = .ok distance →
      postgresRepository.GetDistance db req = (distance, none)) ∧
    errorsIs (postgresRepository.GetDistance db req).2 .ErrNotFound = false ∧
    errorsIs (postgresRepository.GetDistance db req).2 .ErrInvalidArgument = false := by
  have hval : ∀ err, db req = .error err →
      postgresRepository.GetDistance db req =
        if err.Is .ErrNoRows then (0, none)
        else (0, some (errorfWV .ErrInternalError err)) := by
    intro err h
    simp [postgresRepository.GetDistance, h, errorsIs]
  have hok : ∀ d, db req = .ok d → postgresRepository.GetDistance db req = (d, none) := by
    intro d h
    simp [postgresRepository.GetDistance, h]
  have hnever : ∀ s : Sentinel, s ≠ .ErrInternalError →
      errorsIs (postgresRepository.GetDistance db req).2 s = false := by
    intro s hs
    cases h : db req with
    | ok d => rw [hok d h]; rfl
    | error err =>
      rw [hval err h]
      cases hn : err.Is .ErrNoRows with
      | true => rfl
      | false =>
        have hs2 : ¬ Sentinel.ErrInternalError = s := fun h => hs h.symm
        simp [errorsIs, Is_errorfWV, hs2]
  refine ⟨?_, ?_, hok, hnever _ (by decide), hnever _ (by decide)⟩
  · intro err h1 h2
    have h3 : err.Is .ErrNoRows = true := h2
    rw [hval err h1, h3]
    rfl
  · intro err h1 h2
    have h3 : err.Is .ErrNoRows = false := h2
    rw [hval err h1, h3]
    exact ⟨rfl, by simp [errorsIs, Is_errorfWV]⟩

/-- Witness of C6: the query fails with a connection error. -/
theorem getDistance_result_mapping_witness :
    postgresRepository.GetDistance
        (fun _ => (Except.error (.other "connection reset") : Except GoError Int))
        ⟨7, some 10, some 20⟩ =
      (0, some (errorfWV .ErrInternalError (.other "connection reset"))) :=
  ((getDistance_result_mapping
      (fun _ => (Except.error (.other "connection reset") : Except GoError Int))
      ⟨7, some 10, some 20⟩).2.1 (.other "connection reset") rfl rfl).1

/-- Counterexample to C7 as stated: with both bounds absent the query selects no record
at all, although the table holds a record of the user; the same happens when only one
bound is absent. -/
theorem getDistanceQuery_null_bounds_counterexample :
    getDistanceRows [(⟨1, 7, ⟨10, 20⟩, ⟨30, 40⟩, 5⟩ : Record Int)] ⟨7, none, none⟩ = [] ∧
    getDistanceRows [(⟨1, 7, ⟨10, 20⟩, ⟨30, 40⟩, 5⟩ : Record Int)] ⟨7, some 0, none⟩ = [] ∧
    getDistanceRows [(⟨1, 7, ⟨10, 20⟩, ⟨30, 40⟩, 5⟩ : Record Int)] ⟨7, none, some 9⟩ = [] ∧
    getDistanceQuery (fun _ _ => 1) [(⟨1, 7, ⟨10, 20⟩, ⟨30, 40⟩, 5⟩ : Record Int)]
      ⟨7, none, none⟩ = 0 := by
  refine ⟨by decide, by decide, by decide, ?_⟩
  have h : getDistanceRows [(⟨1, 7, ⟨10, 20⟩, ⟨30, 40⟩, 5⟩ : Record Int)] ⟨7, none, none⟩
      = [] := by decide
  simp [getDistanceQuery, h]

/-- C7 (amended): when both bounds are present, the GetDistance query aggregates over
exactly the given user's records whose timestamp t satisfies From <= t <= To, both
bounds inclusive, and its value is the sum of their distances converted to meters. -/
theorem getDistanceQuery_both_bounds {F : Type} (dist : Point F → Point F → ℚ)
    (table : List (Record F)) (userID : Int) (lower upper : Time) :
    getDistanceRows table ⟨userID, some lower, some upper⟩ =
      table.filter (fun row =>
        decide (row.UserID = userID ∧ lower ≤ row.Timestamp ∧ row.Timestamp ≤ upper)) ∧
    (∀ row, row ∈ getDistanceRows table ⟨userID, some lower, some upper⟩ ↔
      row ∈ table ∧ row.UserID = userID ∧ lower ≤ row.Timestamp ∧
        row.Timestamp ≤ upper) ∧
    getDistanceQuery dist table ⟨userID, some lower, some upper⟩ =
      ((table.filter (fun row =>
        decide (row.UserID = userID ∧ lower ≤ row.Timestamp ∧ row.Timestamp ≤ upper))).map
          (fun row => dist row.A row.B)).sum * (1609344 / 1000) := by
  have hfilter : getDistanceRows table ⟨userID, some lower, some upper⟩ =
      table.filter (fun row =>
        decide (row.UserID = userID ∧ lower ≤ row.Timestamp ∧ row.Timestamp ≤ upper)) := by
    unfold getDistanceRows
    apply List.filter_congr
    intro row _
    by_cases h1 : row.UserID = userID <;> by_cases h2 : lower ≤ row.Timestamp <;>
      by_cases h3 : row.Timestamp ≤ upper <;>
      simp [getDistanceWhere, sqlAnd, sqlEq, sqlGe, sqlLe, h1, h2, h3]
  refine ⟨hfilter, ?_, ?_⟩
  · intro row
    rw [hfilter]
    simp [List.mem_filter]
  · simp only [getDistanceQuery, hfilter]

/-- C8: the success classifiers configured for the circuit breaker and for the retrier
are the same function; each returns true exactly when the error (nil included) does
not wrap ErrInternalError; an InvalidArgument or NotFound result is a success (not
counted by the breaker, not retried), and an Internal result is a failure for both. -/
theorem isSuccessful_classifiers (e : Option GoError) :
    App.Start.breakerIsSuccessful e = App.Start.retrierIsSuccessful e ∧
    (App.Start.breakerIsSuccessful e = true ↔ errorsIs e .ErrInternalError = false) ∧
    (App.Start.retrierIsSuccessful e = true ↔ errorsIs e .ErrInternalError = false) ∧
    (errorsIs e .ErrInvalidArgument = true →
      App.Start.breakerIsSuccessful e = true ∧ App.Start.retrierIsSuccessful e = true) ∧
    (errorsIs e .ErrNotFound = true →
      App.Start.breakerIsSuccessful e = true ∧ App.Start.retrierIsSuccessful e = true) ∧
    (errorsIs e .ErrInternalError = true →
      App.Start.breakerIsSuccessful e = false ∧ App.Start.retrierIsSuccessful e = false) ∧
    (e = none →
      App.Start.breakerIsSuccessful e = true ∧ App.Start.retrierIsSuccessful e = true) := by
  have hexcl : ∀ s : Sentinel, s ≠ .ErrInternalError → errorsIs e s = true →
      errorsIs e .ErrInternalError = false := by
    intro s hs h
    cases e with
    | none => rfl
    | some err =>
      simp only [errorsIs] at h ⊢
      cases hI : err.Is .ErrInternalError with
      | false => rfl
      | true => exact absurd (GoError.Is_unique err _ _ h hI) hs
  refine ⟨rfl, ?_, ?_, ?_, ?_, ?_, ?_⟩
  · simp [App.Start.breakerIsSuccessful]
  · simp [App.Start.retrierIsSuccessful]
  · intro h
    simp [App.Start.breakerIsSuccessful, App.Start.retrierIsSuccessful,
      hexcl _ (by decide) h]
  · intro h
    simp [App.Start.breakerIsSuccessful, App.Start.retrierIsSuccessful,
      hexcl _ (by decide) h]
  · intro h
    simp [App.Start.breakerIsSuccessful, App.Start.retrierIsSuccessful, h]
  · intro h
    simp [App.Start.breakerIsSuccessful, App.Start.retrierIsSuccessful, h, errorsIs]

/-- Witness of C8: an InvalidArgument result as the history client returns it. -/
theorem isSuccessful_classifiers_witness :
    App.Start.breakerIsSuccessful (some (errorfW .ErrInvalidArgument)) = true ∧
    App.Start.retrierIsSuccessful (some (errorfW .ErrInvalidArgument)) = true :=
  (isSuccessful_classifiers (some (errorfW .ErrInvalidArgument))).2.2.2.1 (by decide)

/-- Truncation toward zero leaves an integer unchanged. -/
theorem truncTowardZero_intCast (n : ℤ) : truncTowardZero (n : ℚ) = n := by
  unfold truncTowardZero
  split_ifs <;> simp

/-- The integer part of a nonnegative number between `n` and `n + 1`. -/
theorem truncTowardZero_of_nonneg (x : ℚ) (n : ℤ) (h0 : 0 ≤ x) (h1 : (n : ℚ) ≤ x)
    (h2 : x < n + 1) : truncTowardZero x = n := by
  unfold truncTowardZero
  rw [if_pos h0, Int.floor_eq_iff]
  exact ⟨h1, h2⟩

/-- Repeating `util.Trunc` at the same precision changes nothing. -/
theorem util_Trunc_idempotent (x : ℚ) (k : Int) :
    util.Trunc (util.Trunc x k) k = util.Trunc x k := by
  unfold util.Trunc
  by_cases hk : k < 0
  · simp [hk]
  · simp only [hk, if_false]
    have h10 : (10 : ℚ) ^ k.toNat ≠ 0 := by positivity
    rw [div_mul_cancel₀ _ h10, truncTowardZero_intCast]

/-- The function `util.Trunc` at the precision of geo points. -/
theorem util_Trunc_eight (x : ℚ) :
    util.Trunc x 8 = (truncTowardZero (x * 10 ^ 8) : ℚ) / 10 ^ 8 := by
  have h8 : (8 : Int).toNat = 8 := rfl
  simp [util.Trunc, h8]

/-- C9: truncation is idempotent: for every point p, geo.Trunc (geo.Trunc p) equals
geo.Trunc p; each coordinate is truncated on its own to 8 fractional digits, toward
zero and not rounded (0.123456789 becomes 0.12345678, and the result never exceeds the
coordinate in absolute value and is less than 1e-8 away from it), and a coordinate
with at most 8 fractional digits is left unchanged (0.1234 stays 0.1234). -/
theorem geoTrunc_idempotent (p : Point ℚ) :
    geo.Trunc util.Trunc (geo.Trunc util.Trunc p) = geo.Trunc util.Trunc p ∧
    geo.Trunc util.Trunc p = ⟨util.Trunc p.lon 8, util.Trunc p.lat 8⟩ ∧
    (∀ n : ℤ, p.lon = n / 10 ^ 8 → (geo.Trunc util.Trunc p).lon = p.lon) ∧
    (∀ n : ℤ, p.lat = n / 10 ^ 8 → (geo.Trunc util.Trunc p).lat = p.lat) ∧
    (∀ x : ℚ, 0 ≤ x → util.Trunc x 8 ≤ x ∧ x < util.Trunc x 8 + 1 / 10 ^ 8) ∧
    (∀ x : ℚ, x < 0 → x ≤ util.Trunc x 8 ∧ util.Trunc x 8 < x + 1 / 10 ^ 8) ∧
    util.Trunc (123456789 / 1000000000) 8 = 12345678 / 100000000 ∧
    util.Trunc (1234 / 10000) 8 = 1234 / 10000 := by
  have hfix : ∀ (x : ℚ) (n : ℤ), x = n / 10 ^ 8 → util.Trunc x 8 = x := by
    intro x n hx
    have h10 : (10 : ℚ) ^ 8 ≠ 0 := by positivity
    rw [util_Trunc_eight, hx, div_mul_cancel₀ _ h10, truncTowardZero_intCast]
  have hpos : (0 : ℚ) < 10 ^ 8 := by positivity
  refine ⟨?_, rfl, fun n h => hfix _ n h, fun n h => hfix _ n h, ?_, ?_, ?_, ?_⟩
  · simp only [geo.Trunc, util_Trunc_idempotent]
  · intro x hx
    have h0 : 0 ≤ x * 10 ^ 8 := mul_nonneg hx hpos.le
    rw [util_Trunc_eight]
    simp only [truncTowardZero, if_pos h0]
    constructor
    · rw [div_le_iff₀ hpos]
      exact Int.floor_le _
    · have h := Int.lt_floor_add_one (x * 10 ^ 8 : ℚ)
      rw [← add_div, lt_div_iff₀ hpos]
      exact h
  · intro x hx
    have h0 : ¬ 0 ≤ x * 10 ^ 8 := not_le.mpr (mul_neg_of_neg_of_pos hx hpos)
    rw [util_Trunc_eight]
    simp only [truncTowardZero, if_neg h0]
    constructor
    · rw [le_div_iff₀ hpos]
      exact Int.le_ceil _
    · have h := Int.ceil_lt_add_one (x * 10 ^ 8 : ℚ)
      rw [div_lt_iff₀ hpos, add_mul, one_div, inv_mul_cancel₀ hpos.ne']
      exact h
  · have h : truncTowardZero ((123456789 / 1000000000 : ℚ) * 10 ^ 8) = 12345678 :=
      truncTowardZero_of_nonneg _ _ (by norm_num) (by norm_num) (by norm_num)
    rw [util_Trunc_eight, h]
    norm_num
  · have h := hfix (1234 / 10000) 12340000 (by norm_num)
    exact h

/-- Witness of C9: the point (0.5, -12.25) has at most 8 fractional digits. -/
theorem geoTrunc_idempotent_witness :
    (geo.Trunc util.Trunc ⟨1 / 2, -49 / 4⟩).lon = 1 / 2 :=
  (geoTrunc_idempotent ⟨1 / 2, -49 / 4⟩).2.2.1 50000000 (by norm_num)

/-- The method `ss.accept` fails, consuming nothing, when the next rune is not accepted. -/
theorem accept_headNotIn (ok buf l : List Char) (h : HeadNotIn ok l) :
    ss.accept ⟨buf, l⟩ ok = (false, ⟨buf, l⟩) := by
  cases l with
  | nil => rfl
  | cons r rest => simp [ss.accept, h r rest rfl]

/-- The method `ss.accept` moves an accepted rune to the buffer. -/
theorem accept_cons_mem (ok buf rest : List Char) (r : Char) (h : r ∈ ok) :
    ss.accept ⟨buf, r :: rest⟩ ok = (true, ⟨buf ++ [r], rest⟩) := by
  simp [ss.accept, h]

/-- The loop over `ss.accept` consumes a run of accepted runes up to the first other one. -/
theorem acceptAll_append (ok : List Char) (ds : List Char) :
    ∀ (buf next : List Char), (∀ d ∈ ds, d ∈ ok) → HeadNotIn ok next →
      acceptAll ok buf (ds ++ next) = ⟨buf ++ ds, next⟩ := by
  induction ds with
  | nil =>
    intro buf next _ hn
    cases next with
    | nil => simp [acceptAll]
    | cons r rest => simp [acceptAll, hn r rest rfl]
  | cons d ds ih =>
    intro buf next hd hn
    have h1 : d ∈ ok := hd d (List.mem_cons_self _ _)
    have h2 : ∀ d2 ∈ ds, d2 ∈ ok := fun d2 h => hd d2 (List.mem_cons_of_mem _ h)
    simp [acceptAll, h1, ih (buf ++ [d]) next h2 hn]

/-- A decimal digit is accepted as a digit and by no other step of `floatToken`. -/
theorem digit_cases (d : Char) (h : d ∈ decimalDigits) :
    d ∉ "nN".toList ∧ d ∉ sign ∧ d ∉ "iI".toList ∧ d ∉ "xX".toList ∧ d ∉ period ∧
    d ∉ exponent ∧ d ∈ decimalDigits ++ "_".toList := by
  simp only [decimalDigits, String.toList] at h
  simp only [List.mem_cons, List.mem_singleton, List.not_mem_nil, or_false] at h
  rcases h with rfl | rfl | rfl | rfl | rfl | rfl | rfl | rfl | rfl | rfl <;> decide

/-- A delimiter of the point text is no part of a number. -/
theorem delimiter_cases (c : Char) (h : c = ',' ∨ c = ')') :
    c ∉ "nN".toList ∧ c ∉ sign ∧ c ∉ "iI".toList ∧ c ∉ "xX".toList ∧ c ∉ period ∧
    c ∉ exponent ∧ c ∉ decimalDigits ++ "_".toList ∧ c ∉ "0".toList := by
  rcases h with rfl | rfl <;> decide

/-- The number steps of `floatToken` consume digits, fraction and exponent of a decimal
text and stop at the delimiter. -/
theorem number_decimal (buf int frac exp rest : List Char) (c : Char)
    (hint : ∀ d ∈ int, d ∈ decimalDigits)
    (hfrac : frac = [] ∨ ∃ ds, frac = '.' :: ds ∧ ∀ d ∈ ds, d ∈ decimalDigits)
    (hexp : exp = [] ∨ ∃ sg ds, exp = 'e' :: sg :: ds ∧ sg ∈ sign ∧
      ∀ d ∈ ds, d ∈ decimalDigits)
    (hc : c = ',' ∨ c = ')') :
    floatToken.number (decimalDigits ++ "_".toList) exponent
        ⟨buf, int ++ (frac ++ (exp ++ c :: rest))⟩ =
      ⟨buf ++ int ++ frac ++ exp, c :: rest⟩ := by
  have hcs := delimiter_cases c hc
  have hdig : ∀ l : List Char, (∀ d ∈ l, d ∈ decimalDigits) →
      ∀ d ∈ l, d ∈ decimalDigits ++ "_".toList :=
    fun l hl d hd => (digit_cases d (hl d hd)).2.2.2.2.2.2
  -- what follows the exponent part
  have hend : ∀ ok, c ∉ ok → HeadNotIn ok (c :: rest) := by
    intro ok hcok r rest2 h
    cases h
    exact hcok
  -- what follows the fraction part
  have hexpHead : ∀ ok, c ∉ ok → 'e' ∉ ok → HeadNotIn ok (exp ++ c :: rest) := by
    intro ok hcok heok
    rcases hexp with rfl | ⟨sg, ds, rfl, _, _⟩
    · exact hend ok hcok
    · intro r rest2 h
      cases h
      exact heok
  -- what follows the integer part
  have hfracHead : ∀ ok, c ∉ ok → 'e' ∉ ok → '.' ∉ ok →
      HeadNotIn ok (frac ++ (exp ++ c :: rest)) := by
    intro ok hcok heok hpok
    rcases hfrac with rfl | ⟨ds, rfl, _⟩
    · exact hexpHead ok hcok heok
    · intro r rest2 h
      cases h
      exact hpok
  unfold floatToken.number
  simp only
  rw [acceptAll_append _ int buf _ (hdig int hint)
    (hfracHead _ hcs.2.2.2.2.2.2.1 (by decide) (by decide))]
  -- the fraction
  have hstep2 : (if (ss.accept ⟨buf ++ int, frac ++ (exp ++ c :: rest)⟩ period).1 = true then
        acceptAll (decimalDigits ++ "_".toList)
          (ss.accept ⟨buf ++ int, frac ++ (exp ++ c :: rest)⟩ period).2.buf
          (ss.accept ⟨buf ++ int, frac ++ (exp ++ c :: rest)⟩ period).2.input
      else (ss.accept ⟨buf ++ int, frac ++ (exp ++ c :: rest)⟩ period).2) =
      ⟨buf ++ int ++ frac, exp ++ c :: rest⟩ := by
    rcases hfrac with rfl | ⟨ds, rfl, hds⟩
    · rw [List.nil_append, accept_headNotIn _ _ _ (hexpHead _ hcs.2.2.2.2.1 (by decide))]
      simp
    · rw [List.cons_append, accept_cons_mem _ _ _ _ (by decide)]
      simp only [if_true]
      rw [acceptAll_append _ ds _ _ (hdig ds hds)
        (hexpHead _ hcs.2.2.2.2.2.2.1 (by decide))]
      simp
  rw [hstep2]
  -- the exponent
  rcases hexp with rfl | ⟨sg, ds, rfl, hsg, hds⟩
  · rw [List.nil_append, accept_headNotIn _ _ _ (hend _ hcs.2.2.2.2.2.1)]
    simp
  · rw [List.cons_append, List.cons_append, accept_cons_mem _ _ _ _ (by decide)]
    simp only [if_true]
    rw [accept_cons_mem _ _ _ _ hsg]
    simp only
    rw [acceptAll_append _ ds _ _ (hdig ds hds) (hend _ hcs.2.2.2.2.2.2.1)]
    simp

/-- The steps of `floatToken` after the sign consume an unsigned decimal text and stop at
the delimiter. -/
theorem unsigned_decimal (buf ds frac exp rest : List Char) (d c : Char)
    (hd : d ∈ decimalDigits) (hds : ∀ d2 ∈ ds, d2 ∈ decimalDigits)
    (hfrac : frac = [] ∨ ∃ fs, frac = '.' :: fs ∧ ∀ d2 ∈ fs, d2 ∈ decimalDigits)
    (hexp : exp = [] ∨ ∃ sg es, exp = 'e' :: sg :: es ∧ sg ∈ sign ∧
      ∀ d2 ∈ es, d2 ∈ decimalDigits)
    (hc : c = ',' ∨ c = ')') :
    floatToken.unsigned ⟨buf, d :: (ds ++ (frac ++ (exp ++ c :: rest)))⟩ =
      (buf ++ d :: ds ++ frac ++ exp, c :: rest) := by
  have hdc := digit_cases d hd
  have hcs := delimiter_cases c hc
  unfold floatToken.unsigned
  simp only
  rw [accept_headNotIn "iI".toList _ _ (by intro r rest2 h; cases h; exact hdc.2.2.1)]
  simp only [Bool.false_eq_true, if_false]
  by_cases h0 : d = '0'
  · subst h0
    rw [accept_cons_mem _ _ _ _ (by decide)]
    simp only [if_true]
    have hx : HeadNotIn "xX".toList (ds ++ (frac ++ (exp ++ c :: rest))) := by
      intro r rest2 h
      cases ds with
      | cons d2 ds2 =>
        cases h
        exact (digit_cases r (hds r (List.mem_cons_self _ _))).2.2.2.1
      | nil =>
        rcases hfrac with rfl | ⟨fs, rfl, _⟩
        · rcases hexp with rfl | ⟨sg, es, rfl, _, _⟩
          · cases h
            exact hcs.2.2.2.1
          · cases h
            decide
        · cases h
          decide
    rw [accept_headNotIn _ _ _ hx]
    simp only [Bool.false_eq_true, if_false]
    rw [number_decimal _ ds frac exp rest c hds hfrac hexp hc]
    simp
  · have hz : HeadNotIn "0".toList (d :: (ds ++ (frac ++ (exp ++ c :: rest)))) := by
      intro r rest2 h
      cases h
      simpa using h0
    rw [accept_headNotIn _ _ _ hz]
    simp only [Bool.false_eq_true, if_false]
    have hint : ∀ d2 ∈ d :: ds, d2 ∈ decimalDigits := by
      intro d2 h2
      rcases List.mem_cons.1 h2 with rfl | h3
      · exact hd
      · exact hds d2 h3
    have := number_decimal buf (d :: ds) frac exp rest c hint hfrac hexp hc
    rw [List.cons_append] at this
    rw [this]

/-- The method `floatToken` consumes exactly a decimal text that is followed by a
delimiter of the point text. -/
theorem floatToken_decimal (t rest : List Char) (c : Char) (ht : IsDecimalFloatText t)
    (hc : c = ',' ∨ c = ')') : floatToken (t ++ c :: rest) = (t, c :: rest) := by
  obtain ⟨sgn, int, frac, exp, rfl, hsgn, hne, hint, hfrac, hexp⟩ := ht
  cases int with
  | nil => exact absurd rfl hne
  | cons d ds =>
    have hd : d ∈ decimalDigits := hint d (List.mem_cons_self _ _)
    have hds : ∀ d2 ∈ ds, d2 ∈ decimalDigits := fun d2 h => hint d2 (List.mem_cons_of_mem _ h)
    have hdc := digit_cases d hd
    have hu := fun buf => unsigned_decimal buf ds frac exp rest d c hd hds hfrac hexp hc
    unfold floatToken
    simp only
    rcases hsgn with rfl | rfl
    · have hin : ([] ++ d :: ds ++ frac ++ exp ++ c :: rest) =
          d :: (ds ++ (frac ++ (exp ++ c :: rest))) := by simp
      rw [hin, accept_headNotIn "nN".toList _ _ (by intro r rest2 h; cases h; exact hdc.1)]
      simp only [Bool.false_eq_true, if_false]
      rw [accept_headNotIn sign _ _ (by intro r rest2 h; cases h; exact hdc.2.1)]
      simp only
      rw [hu]
    · have hin : (['-'] ++ d :: ds ++ frac ++ exp ++ c :: rest) =
          '-' :: d :: (ds ++ (frac ++ (exp ++ c :: rest))) := by simp
      rw [hin, accept_headNotIn "nN".toList _ _ (by intro r rest2 h; cases h; decide)]
      simp only [Bool.false_eq_true, if_false]
      rw [accept_cons_mem sign _ _ _ (by decide)]
      simp only
      rw [hu]
      simp

/-- A decimal text starts with no space, so `SkipSpace` leaves it alone. -/
theorem SkipSpace_decimal (t rest : List Char) (ht : IsDecimalFloatText t) :
    ∃ r tl, t ++ rest = r :: tl ∧ SkipSpace (t ++ rest) = .ok (t ++ rest) := by
  obtain ⟨sgn, int, frac, exp, rfl, hsgn, hne, hint, hfrac, hexp⟩ := ht
  cases int with
  | nil => exact absurd rfl hne
  | cons d ds =>
    have hd : d ∈ decimalDigits := hint d (List.mem_cons_self _ _)
    have hsp : d ≠ '\n' ∧ isSpace d = false := by
      simp only [decimalDigits, String.toList] at hd
      simp only [List.mem_cons, List.mem_singleton, List.not_mem_nil, or_false] at hd
      rcases hd with rfl | rfl | rfl | rfl | rfl | rfl | rfl | rfl | rfl | rfl <;> decide
    rcases hsgn with rfl | rfl
    · refine ⟨d, ds ++ frac ++ exp ++ rest, by simp, ?_⟩
      simp [SkipSpace, hsp.1, hsp.2]
    · refine ⟨'-', d :: ds ++ frac ++ exp ++ rest, by simp, ?_⟩
      have h1 : isSpace '-' = false := by decide
      simp [SkipSpace, h1]

/-- The verb `%f` reads a decimal text that is followed by a delimiter and converts it. -/
theorem scanFloat_decimal {F : Type} (parseFloat : List Char → Except GoError F)
    (t rest : List Char) (c : Char) (x : F) (ht : IsDecimalFloatText t)
    (hc : c = ',' ∨ c = ')') (hx : parseFloat t = .ok x) :
    scanFloat parseFloat (t ++ c :: rest) = .ok (x, c :: rest) := by
  obtain ⟨r, tl, hcons, hskip⟩ := SkipSpace_decimal t (c :: rest) ht
  unfold scanFloat
  rw [hskip]
  simp only
  rw [hskip, hcons]
  simp only
  rw [← hcons, floatToken_decimal t rest c ht hc]
  simp [hx]

/-- C10: point codec round trip.  `Value` renders a point as an opening parenthesis, the
longitude, a comma, the latitude and a closing parenthesis; `Scan` applied to the bytes
of that text succeeds (nil error) and leaves in the receiver, whatever it held before,
exactly the point that was rendered, longitude first and latitude second; hence the
two points are also equal after truncation.  This holds for every point whose
coordinates `%v` renders as decimal texts that the conversion reads back, which is the
case of every finite 64 bit float and so of every in-range point. -/
theorem postgresPoint_roundtrip {F : Type} (formatFloat : F → List Char)
    (parseFloat : List Char → Except GoError F) (p q : Point F)
    (hlonText : IsDecimalFloatText (formatFloat p.lon))
    (hlatText : IsDecimalFloatText (formatFloat p.lat))
    (hlon : parseFloat (formatFloat p.lon) = .ok p.lon)
    (hlat : parseFloat (formatFloat p.lat) = .ok p.lat) :
    PostgresPoint.Value formatFloat p =
      ('(' :: (formatFloat p.lon ++ ',' :: (formatFloat p.lat ++ [')'])), none) ∧
    PostgresPoint.Scan parseFloat q (.bytes (PostgresPoint.Value formatFloat p).1) =
      (p, none) ∧
    (∀ utilTrunc : F → Int → F,
      geo.Trunc utilTrunc
          (PostgresPoint.Scan parseFloat q
            (.bytes (PostgresPoint.Value formatFloat p).1)).1 =
        geo.Trunc utilTrunc p) := by
  have hscan : PostgresPoint.Scan parseFloat q
      (.bytes (PostgresPoint.Value formatFloat p).1) = (p, none) := by
    simp only [PostgresPoint.Scan, PostgresPoint.Value, sscanfPoint, literal, if_true]
    rw [scanFloat_decimal parseFloat _ _ ',' p.lon hlonText (Or.inl rfl) hlon]
    simp only [literal, if_true]
    have h2 : formatFloat p.lat ++ [')'] = formatFloat p.lat ++ ')' :: [] := rfl
    rw [h2, scanFloat_decimal parseFloat _ _ ')' p.lat hlatText (Or.inr rfl) hlat]
    simp [literal]
  refine ⟨rfl, hscan, ?_⟩
  intro utilTrunc
  rw [hscan]

/-- Witness of C10: the point (1.5, -2e-07) under a codec that knows these two texts. -/
theorem postgresPoint_roundtrip_witness :
    PostgresPoint.Scan
        (fun t => if t = "1.5".toList then Except.ok 15
          else if t = "-2e-07".toList then Except.ok 0
          else Except.error (GoError.other "invalid syntax"))
        (⟨0, 0⟩ : Point Int)
        (.bytes (PostgresPoint.Value
          (fun x : Int => if x = 15 then "1.5".toList else "-2e-07".toList) ⟨15, 0⟩).1) =
      (⟨15, 0⟩, none) :=
  (postgresPoint_roundtrip
    (fun x : Int => if x = 15 then "1.5".toList else "-2e-07".toList)
    (fun t => if t = "1.5".toList then Except.ok 15
      else if t = "-2e-07".toList then Except.ok 0
      else Except.error (GoError.other "invalid syntax"))
    ⟨15, 0⟩ ⟨0, 0⟩
    ⟨[], ['1'], ['.', '5'], [], rfl, Or.inl rfl, by decide, by decide,
      Or.inr ⟨['5'], rfl, by decide⟩, Or.inl rfl⟩
    ⟨['-'], ['2'], [], ['e', '-', '0', '7'], rfl, Or.inr rfl, by decide, by decide,
      Or.inl rfl, Or.inr ⟨'-', ['0', '7'], rfl, by decide, by decide⟩⟩
    rfl rfl).2.1

/-- The number steps of `floatToken` consume digits, fraction and exponent of a decimal
text that ends the input. -/
theorem number_decimal_eof (buf int frac exp : List Char)
    (hint : ∀ d ∈ int, d ∈ decimalDigits)
    (hfrac : frac = [] ∨ ∃ ds, frac = '.' :: ds ∧ ∀ d ∈ ds, d ∈ decimalDigits)
    (hexp : exp = [] ∨ ∃ sg ds, exp = 'e' :: sg :: ds ∧ sg ∈ sign ∧
      ∀ d ∈ ds, d ∈ decimalDigits) :
    floatToken.number (decimalDigits ++ "_".toList) exponent
        ⟨buf, int ++ (frac ++ exp)⟩ =
      ⟨buf ++ int ++ frac ++ exp, []⟩ := by
  have hdig : ∀ l : List Char, (∀ d ∈ l, d ∈ decimalDigits) →
      ∀ d ∈ l, d ∈ decimalDigits ++ "_".toList :=
    fun l hl d hd => (digit_cases d (hl d hd)).2.2.2.2.2.2
  have hend : ∀ ok : List Char, HeadNotIn ok [] := by
    intro ok r rest2 h
    cases h
  have hexpHead : ∀ ok, 'e' ∉ ok → HeadNotIn ok exp := by
    intro ok heok
    rcases hexp with rfl | ⟨sg, ds, rfl, _, _⟩
    · exact hend ok
    · intro r rest2 h
      cases h
      exact heok
  have hfracHead : ∀ ok, 'e' ∉ ok → '.' ∉ ok → HeadNotIn ok (frac ++ exp) := by
    intro ok heok hpok
    rcases hfrac with rfl | ⟨ds, rfl, _⟩
    · exact hexpHead ok heok
    · intro r rest2 h
      cases h
      exact hpok
  unfold floatToken.number
  simp only
  rw [acceptAll_append _ int buf _ (hdig int hint) (hfracHead _ (by decide) (by decide))]
  have hstep2 : (if (ss.accept ⟨buf ++ int, frac ++ exp⟩ period).1 = true then
        acceptAll (decimalDigits ++ "_".toList)
          (ss.accept ⟨buf ++ int, frac ++ exp⟩ period).2.buf
          (ss.accept ⟨buf ++ int, frac ++ exp⟩ period).2.input
      else (ss.accept ⟨buf ++ int, frac ++ exp⟩ period).2) =
      ⟨buf ++ int ++ frac, exp⟩ := by
    rcases hfrac with rfl | ⟨ds, rfl, hds⟩
    · rw [List.nil_append, accept_headNotIn _ _ _ (hexpHead _ (by decide))]
      simp
    · rw [List.cons_append, accept_cons_mem _ _ _ _ (by decide)]
      simp only [if_true]
      rw [acceptAll_append _ ds _ _ (hdig ds hds) (hexpHead _ (by decide))]
      simp
  rw [hstep2]
  rcases hexp with rfl | ⟨sg, ds, rfl, hsg, hds⟩
  · rw [accept_headNotIn _ _ _ (hend _)]
    simp
  · rw [accept_cons_mem _ _ _ _ (by decide)]
    simp only [if_true]
    rw [accept_cons_mem _ _ _ _ hsg]
    simp only
    have h := acceptAll_append (decimalDigits ++ "_".toList) ds
      (buf ++ int ++ frac ++ ['e'] ++ [sg]) [] (hdig ds hds) (hend _)
    rw [List.append_nil] at h
    rw [h]
    simp

/-- The steps of `floatToken` after the sign consume an unsigned decimal text that ends
the input. -/
theorem unsigned_decimal_eof (buf ds frac exp : List Char) (d : Char)
    (hd : d ∈ decimalDigits) (hds : ∀ d2 ∈ ds, d2 ∈ decimalDigits)
    (hfrac : frac = [] ∨ ∃ fs, frac = '.' :: fs ∧ ∀ d2 ∈ fs, d2 ∈ decimalDigits)
    (hexp : exp = [] ∨ ∃ sg es, exp = 'e' :: sg :: es ∧ sg ∈ sign ∧
      ∀ d2 ∈ es, d2 ∈ decimalDigits) :
    floatToken.unsigned ⟨buf, d :: (ds ++ (frac ++ exp))⟩ =
      (buf ++ d :: ds ++ frac ++ exp, []) := by
  have hdc := digit_cases d hd
  unfold floatToken.unsigned
  simp only
  rw [accept_headNotIn "iI".toList _ _ (by intro r rest2 h; cases h; exact hdc.2.2.1)]
  simp only [Bool.false_eq_true, if_false]
  by_cases h0 : d = '0'
  · subst h0
    rw [accept_cons_mem _ _ _ _ (by decide)]
    simp only [if_true]
    have hx : HeadNotIn "xX".toList (ds ++ (frac ++ exp)) := by
      intro r rest2 h
      cases ds with
      | cons d2 ds2 =>
        cases h
        exact (digit_cases r (hds r (List.mem_cons_self _ _))).2.2.2.1
      | nil =>
        rcases hfrac with rfl | ⟨fs, rfl, _⟩
        · rcases hexp with rfl | ⟨sg, es, rfl, _, _⟩
          · cases h
          · cases h
            decide
        · cases h
          decide
    rw [accept_headNotIn _ _ _ hx]
    simp only [Bool.false_eq_true, if_false]
    rw [number_decimal_eof _ ds frac exp hds hfrac hexp]
    simp
  · have hz : HeadNotIn "0".toList (d :: (ds ++ (frac ++ exp))) := by
      intro r rest2 h
      cases h
      simpa using h0
    rw [accept_headNotIn _ _ _ hz]
    simp only [Bool.false_eq_true, if_false]
    have hint : ∀ d2 ∈ d :: ds, d2 ∈ decimalDigits := by
      intro d2 h2
      rcases List.mem_cons.1 h2 with rfl | h3
      · exact hd
      · exact hds d2 h3
    have := number_decimal_eof buf (d :: ds) frac exp hint hfrac hexp
    rw [List.cons_append] at this
    rw [this]

/-- The method `floatToken` consumes exactly a decimal text that ends the input. -/
theorem floatToken_decimal_eof (t : List Char) (ht : IsDecimalFloatText t) :
    floatToken t = (t, []) := by
  obtain ⟨sgn, int, frac, exp, rfl, hsgn, hne, hint, hfrac, hexp⟩ := ht
  cases int with
  | nil => exact absurd rfl hne
  | cons d ds =>
    have hd : d ∈ decimalDigits := hint d (List.mem_cons_self _ _)
    have hds : ∀ d2 ∈ ds, d2 ∈ decimalDigits := fun d2 h => hint d2 (List.mem_cons_of_mem _ h)
    have hdc := digit_cases d hd
    have hu := fun buf => unsigned_decimal_eof buf ds frac exp d hd hds hfrac hexp
    unfold floatToken
    simp only
    rcases hsgn with rfl | rfl
    · have hin : ([] ++ d :: ds ++ frac ++ exp) = d :: (ds ++ (frac ++ exp)) := by simp
      rw [hin, accept_headNotIn "nN".toList _ _ (by intro r rest2 h; cases h; exact hdc.1)]
      simp only [Bool.false_eq_true, if_false]
      rw [accept_headNotIn sign _ _ (by intro r rest2 h; cases h; exact hdc.2.1)]
      simp only
      rw [hu]
      simp
    · have hin : (['-'] ++ d :: ds ++ frac ++ exp) = '-' :: d :: (ds ++ (frac ++ exp)) := by
        simp
      rw [hin, accept_headNotIn "nN".toList _ _ (by intro r rest2 h; cases h; decide)]
      simp only [Bool.false_eq_true, if_false]
      rw [accept_cons_mem sign _ _ _ (by decide)]
      simp only
      rw [hu]
      simp

/-- The verb `%f` reads a decimal text that ends the input and converts it. -/
theorem scanFloat_decimal_eof {F : Type} (parseFloat : List Char → Except GoError F)
    (t : List Char) (x : F) (ht : IsDecimalFloatText t) (hx : parseFloat t = .ok x) :
    scanFloat parseFloat t = .ok (x, []) := by
  obtain ⟨r, tl, hcons, hskip⟩ := SkipSpace_decimal t [] ht
  rw [List.append_nil] at hcons hskip
  unfold scanFloat
  rw [hskip]
  simp only
  rw [hskip, hcons]
  simp only
  rw [← hcons, floatToken_decimal_eof t ht]
  simp [hx]

/-- At a delimiter of the point text `floatToken` reads the empty token. -/
theorem floatToken_delimiter (c : Char) (rest : List Char) (hc : c = ',' ∨ c = ')') :
    floatToken (c :: rest) = ([], c :: rest) := by
  have hcs := delimiter_cases c hc
  have hh : ∀ ok, c ∉ ok → HeadNotIn ok (c :: rest) := by
    intro ok hcok r rest2 h
    cases h
    exact hcok
  have hall : ∀ ok, c ∉ ok → acceptAll ok [] (c :: rest) = ⟨[], c :: rest⟩ := by
    intro ok hcok
    simp [acceptAll, hcok]
  unfold floatToken
  simp only
  rw [accept_headNotIn "nN".toList _ _ (hh _ hcs.1)]
  simp only [Bool.false_eq_true, if_false]
  rw [accept_headNotIn sign _ _ (hh _ hcs.2.1)]
  unfold floatToken.unsigned
  simp only
  rw [accept_headNotIn "iI".toList _ _ (hh _ hcs.2.2.1)]
  simp only [Bool.false_eq_true, if_false]
  rw [accept_headNotIn "0".toList _ _ (hh _ hcs.2.2.2.2.2.2.2)]
  simp only [Bool.false_eq_true, if_false]
  unfold floatToken.number
  simp only
  rw [hall _ hcs.2.2.2.2.2.2.1, accept_headNotIn period _ _ (hh _ hcs.2.2.2.2.1)]
  simp only [Bool.false_eq_true, if_false]
  rw [accept_headNotIn exponent _ _ (hh _ hcs.2.2.2.2.2.1)]
  simp

/-- At a delimiter of the point text the verb `%f` hands the empty token to the
conversion. -/
theorem scanFloat_delimiter {F : Type} (parseFloat : List Char → Except GoError F)
    (c : Char) (rest : List Char) (e0 : GoError) (hc : c = ',' ∨ c = ')')
    (hempty : parseFloat [] = .error e0) :
    scanFloat parseFloat (c :: rest) = .error e0 := by
  have hskip : SkipSpace (c :: rest) = .ok (c :: rest) := by
    rcases hc with rfl | rfl
    · have h1 : isSpace ',' = false := by decide
      simp [SkipSpace, h1]
    · have h1 : isSpace ')' = false := by decide
      simp [SkipSpace, h1]
  unfold scanFloat
  rw [hskip]
  simp only
  rw [hskip]
  simp only
  rw [floatToken_delimiter c rest hc]
  simp [hempty]

/-- Counterexample to C11 as stated: the text `(1.5,-2e-07)xyz` has trailing characters
after the pair, yet `Scan` returns a nil error and stores the point; and the error for
a source that is no byte string is a plain error that does not wrap ErrInternalError. -/
theorem postgresPoint_scan_trailing_counterexample :
    PostgresPoint.Scan
        (fun t => if t = "1.5".toList then Except.ok 15
          else if t = "-2e-07".toList then Except.ok 0
          else Except.error (GoError.other "invalid syntax"))
        (⟨0, 0⟩ : Point Int) (.bytes "(1.5,-2e-07)xyz".toList) = (⟨15, 0⟩, none) ∧
    errorsIs (PostgresPoint.Scan
        (fun t => if t = "1.5".toList then Except.ok 15
          else if t = "-2e-07".toList then Except.ok 0
          else Except.error (GoError.other "invalid syntax"))
        (⟨0, 0⟩ : Point Int) .otherType).2 .ErrInternalError = false := by
  constructor
  · decide
  · decide

/-- C11 (amended): `Scan` rejects, with a non-nil plain error, a source that is no byte
string, a text with a missing coordinate, a text with an extra coordinate and a text
without the closing parenthesis (the coordinates that were read before the failure
stay in the receiver); a coordinate that is empty is rejected with the error of the
conversion.  Such a plain error, as it is or wrapped by `database/sql`, is turned into
an error wrapping ErrInternalError by the repository's AddRecord. -/
theorem postgresPoint_scan_rejects {F : Type} [Zero F]
    (parseFloat : List Char → Except GoError F) (q : Point F) (t1 t2 : List Char) (x y : F)
    (ht1 : IsDecimalFloatText t1) (ht2 : IsDecimalFloatText t2)
    (hx : parseFloat t1 = .ok x) (hy : parseFloat t2 = .ok y) :
    PostgresPoint.Scan parseFloat q .otherType =
      (q, some (.other "value contains unexpected type")) ∧
    (∀ rest, PostgresPoint.Scan parseFloat q (.bytes ('(' :: (t1 ++ ')' :: rest))) =
      (⟨x, q.lat⟩, some (.other "input does not match format"))) ∧
    (∀ rest,
      PostgresPoint.Scan parseFloat q (.bytes ('(' :: (t1 ++ ',' :: (t2 ++ ',' :: rest)))) =
        (⟨x, y⟩, some (.other "input does not match format"))) ∧
    PostgresPoint.Scan parseFloat q (.bytes ('(' :: (t1 ++ ',' :: t2))) =
      (⟨x, y⟩, some (.other "unexpected EOF")) ∧
    (∀ e0, parseFloat [] = .error e0 → ∀ rest,
      PostgresPoint.Scan parseFloat q (.bytes ('(' :: ',' :: rest)) = (q, some e0) ∧
      PostgresPoint.Scan parseFloat q (.bytes ('(' :: (t1 ++ ',' :: ')' :: rest))) =
        (⟨x, q.lat⟩, some e0)) ∧
    (∀ (msg : String)
        (db : HistoryRepositoryAddRecordRequest F → Except GoError (AddRecordRow F))
        (req : HistoryRepositoryAddRecordRequest F),
      db req = .error (.other msg) ∨ db req = .error (.wrapW (.other msg)) →
      errorsIs (postgresRepository.AddRecord db req).2 .ErrInternalError = true) := by
  refine ⟨rfl, ?_, ?_, ?_, ?_, ?_⟩
  · intro rest
    simp only [PostgresPoint.Scan, sscanfPoint, literal, if_true]
    rw [scanFloat_decimal parseFloat t1 rest ')' x ht1 (Or.inr rfl) hx]
    simp [literal]
  · intro rest
    simp only [PostgresPoint.Scan, sscanfPoint, literal, if_true]
    rw [scanFloat_decimal parseFloat t1 _ ',' x ht1 (Or.inl rfl) hx]
    simp only [literal, if_true]
    rw [scanFloat_decimal parseFloat t2 rest ',' y ht2 (Or.inl rfl) hy]
    simp [literal]
  · simp only [PostgresPoint.Scan, sscanfPoint, literal, if_true]
    rw [scanFloat_decimal parseFloat t1 _ ',' x ht1 (Or.inl rfl) hx]
    simp only [literal, if_true]
    rw [scanFloat_decimal_eof parseFloat t2 y ht2 hy]
  · intro e0 hempty rest
    constructor
    · simp only [PostgresPoint.Scan, sscanfPoint, literal, if_true]
      rw [scanFloat_delimiter parseFloat ',' rest e0 (Or.inl rfl) hempty]
    · simp only [PostgresPoint.Scan, sscanfPoint, literal, if_true]
      rw [scanFloat_decimal parseFloat t1 _ ',' x ht1 (Or.inl rfl) hx]
      simp only [literal, if_true]
      rw [scanFloat_delimiter parseFloat ')' rest e0 (Or.inr rfl) hempty]
  · intro msg db req h
    rcases h with h | h <;>
      simp [postgresRepository.AddRecord, h, errorsAsPq, errorsIs, Is_errorfWV]

/-- Witness of C11 (amended): the text `(1.5,-2e-07` lacks the closing parenthesis. -/
theorem postgresPoint_scan_rejects_witness :
    PostgresPoint.Scan
        (fun t => if t = "1.5".toList then Except.ok 15
          else if t = "-2e-07".toList then Except.ok 0
          else Except.error (GoError.other "invalid syntax"))
        (⟨0, 0⟩ : Point Int) (.bytes ('(' :: ("1.5".toList ++ ',' :: "-2e-07".toList))) =
      (⟨15, 0⟩, some (.other "unexpected EOF")) :=
  (postgresPoint_scan_rejects
    (fun t => if t = "1.5".toList then Except.ok 15
      else if t = "-2e-07".toList then Except.ok 0
      else Except.error (GoError.other "invalid syntax"))
    (⟨0, 0⟩ : Point Int) "1.5".toList "-2e-07".toList 15 0
    ⟨[], ['1'], ['.', '5'], [], rfl, Or.inl rfl, by decide, by decide,
      Or.inr ⟨['5'], rfl, by decide⟩, Or.inl rfl⟩
    ⟨['-'], ['2'], [], ['e', '-', '0', '7'], rfl, Or.inr rfl, by decide, by decide,
      Or.inl rfl, Or.inr ⟨'-', ['0', '7'], rfl, by decide, by decide⟩⟩
    rfl rfl).2.2.2.1

/-- The conversion `int32` keeps a value that fits into 32 bits. -/
theorem int32_of_inRange (n : Int) (h1 : -2 ^ 31 ≤ n) (h2 : n < 2 ^ 31) : int32 n = n := by
  unfold int32
  omega

/-- The conversion `int32` gives a 32 bit value congruent to its argument modulo 2^32. -/
theorem int32_wraps (n : Int) :
    -2 ^ 31 ≤ int32 n ∧ int32 n < 2 ^ 31 ∧ int32 n % 2 ^ 32 = n % 2 ^ 32 := by
  unfold int32
  omega

/-- C12: the user id that GRPCClient.AddRecord puts on the wire is `int32(req.UserID)`.
It equals req.UserID when req.UserID lies in [-2^31, 2^31-1].  Outside that range it
is req.UserID wrapped modulo 2^32 into the 32 bit range, hence a different user id, and
the conversion raises no error: the result of AddRecord is decided by the transport
alone, so a call that the transport answers returns a nil error. -/
theorem grpcClient_wire_userId {F : Type} [Zero F] (req : HistoryClientAddRecordRequest F) :
    (GRPCClient.wireRequest req).UserId = int32 req.UserID ∧
    (-2 ^ 31 ≤ req.UserID ∧ req.UserID ≤ 2 ^ 31 - 1 →
      (GRPCClient.wireRequest req).UserId = req.UserID) ∧
    (¬ (-2 ^ 31 ≤ req.UserID ∧ req.UserID ≤ 2 ^ 31 - 1) →
      (GRPCClient.wireRequest req).UserId ≠ req.UserID ∧
      (GRPCClient.wireRequest req).UserId % 2 ^ 32 = req.UserID % 2 ^ 32 ∧
      -2 ^ 31 ≤ (GRPCClient.wireRequest req).UserId ∧
      (GRPCClient.wireRequest req).UserId ≤ 2 ^ 31 - 1) ∧
    (∀ (t : Transport F) (res : pb.AddRecordResponse F), t.dial = none →
      t.call (GRPCClient.wireRequest req) = .ok res →
      GRPCClient.AddRecord t req =
        (⟨res.UserId, ⟨res.A.lon, res.A.lat⟩, ⟨res.B.lon, res.B.lat⟩, res.Timestamp⟩,
          none)) := by
  have hw := int32_wraps req.UserID
  refine ⟨rfl, ?_, ?_, ?_⟩
  · intro h
    exact int32_of_inRange _ h.1 (by omega)
  · intro h
    have hid : (GRPCClient.wireRequest req).UserId = int32 req.UserID := rfl
    rw [hid]
    refine ⟨?_, hw.2.2, hw.1, by omega⟩
    intro heq
    rw [heq] at hw
    exact h ⟨hw.1, by omega⟩
  · intro t res hd hc
    simp [GRPCClient.AddRecord, hd, hc]

/-- Witness of C12: the user id 2^31 + 7 goes on the wire as -2^31 + 7. -/
theorem grpcClient_wire_userId_witness :
    (GRPCClient.wireRequest
        (⟨2147483655, ⟨10, 20⟩, ⟨30, 40⟩, 5⟩ : HistoryClientAddRecordRequest Int)).UserId
      ≠ 2147483655 ∧
    (GRPCClient.wireRequest
        (⟨2147483655, ⟨10, 20⟩, ⟨30, 40⟩, 5⟩ : HistoryClientAddRecordRequest Int)).UserId
      = -2147483641 :=
  ⟨((grpcClient_wire_userId
      (⟨2147483655, ⟨10, 20⟩, ⟨30, 40⟩, 5⟩ : HistoryClientAddRecordRequest Int)).2.2.1
      (by decide)).1, by decide⟩

end Geotracker
